import Mathlib

/-!
Verification of the resilient API test-client core of the repository:
TokenManager (src/src/utils/tokenManager.ts), the APIClient request engine
(src/src/pages/basePage.ts) and the SchemaValidator (src/unnamed/part_000),
shallowly embedded in Lean.  JavaScript dynamic values are modelled by an
inductive `Json` type; JS numbers are modelled as integers extended with
NaN and the two infinities; JS exceptions are modelled with `Except`;
wall-clock time (`Date.now()`) is an explicit parameter.
-/

/-! ## JavaScript values -/

/-- A JavaScript number as the validator observes it: NaN, +Infinity,
-Infinity, or an (integer-valued) finite number. -/
inductive JsNum where
  | nan
  | inf
  | negInf
  | val (n : Int)
deriving Repr, DecidableEq

/-- `Number.isNaN`. -/
def JsNum.isNaN : JsNum → Bool
  | .nan => true
  | _ => false

/-- `v < b` for a finite bound `b`, with IEEE semantics: NaN compares false. -/
def JsNum.ltInt : JsNum → Int → Bool
  | .nan, _ => false
  | .inf, _ => false
  | .negInf, _ => true
  | .val a, b => a < b

/-- `v > b` for a finite bound `b`, with IEEE semantics: NaN compares false. -/
def JsNum.gtInt : JsNum → Int → Bool
  | .nan, _ => false
  | .inf, _ => true
  | .negInf, _ => false
  | .val a, b => b < a

/-- `String(n)` for the numbers the model holds. -/
def JsNum.display : JsNum → String
  | .nan => "NaN"
  | .inf => "Infinity"
  | .negInf => "-Infinity"
  | .val n => toString n

/-- A JSON-like JavaScript value (the decoded payloads the validator sees). -/
inductive Json where
  | null
  | bool (b : Bool)
  | num (n : JsNum)
  | str (s : String)
  | arr (elems : List Json)
  | obj (fields : List (String × Json))
deriving Repr

/-- JS `typeof` (note `typeof null` is "object", and so is `typeof` of an
array; `Array.isArray` is separate). -/
def Json.typeof : Json → String
  | .null => "object"
  | .bool _ => "boolean"
  | .num _ => "number"
  | .str _ => "string"
  | .arr _ => "object"
  | .obj _ => "object"

/-- `Array.isArray`. -/
def Json.isArray : Json → Bool
  | .arr _ => true
  | _ => false

/-- `String(v)` as used in the TypeError text of the `in` operator (only
primitives reach it; the operator does not throw on arrays or objects). -/
def Json.display : Json → String
  | .null => "null"
  | .bool true => "true"
  | .bool false => "false"
  | .num n => n.display
  | .str s => s
  | .arr _ => ""
  | .obj _ => "[object Object]"

/-- The message of the TypeError raised by `field in data` on a primitive. -/
def inOpError (field : String) (d : Json) : String :=
  "Cannot use 'in' operator to search for '" ++ field ++ "' in " ++ d.display

/-- JS `field in data`: membership for objects, index-or-length for arrays,
a TypeError for null and the other primitives. -/
def jsIn (field : String) : Json → Except String Bool
  | .obj fields => .ok (fields.any (fun kv => kv.1 == field))
  | .arr elems => .ok (field == "length" ||
      (match field.toNat? with
       | some i => decide (i < elems.length)
       | none => false))
  | d => .error (inOpError field d)

/-- JS `data[field]`, for values on which `field in data` held. -/
def jsonGet (d : Json) (field : String) : Json :=
  match d with
  | .obj fields =>
    (match fields.find? (fun kv => kv.1 == field) with
     | some kv => kv.2
     | none => .null)
  | .arr elems =>
    if field == "length" then .num (.val elems.length)
    else
      (match field.toNat? with
       | some i => elems.getD i .null
       | none => .null)
  | _ => .null

/-! ## TokenManager (src/src/utils/tokenManager.ts)

The manager's single mutable slot `tokenData : TokenData | null` is passed
explicitly; `Date.now()` is the explicit `now` argument (epoch ms). -/

/-- The stored credential (`TokenData` in the source). -/
structure TokenData where
  token : String
  expiresAt : Int
deriving Repr, DecidableEq

/-- Embeds `TokenManager.isTokenExpired`: absent counts as expired,
otherwise compare `Date.now() >= expiresAt`. -/
def isTokenExpired (now : Int) (tokenData : Option TokenData) : Bool :=
  match tokenData with
  | none => true
  | some td => decide (td.expiresAt ≤ now)

/-- Embeds `TokenManager.getToken`: null when absent, null when expired,
else the stored token string. -/
def getToken (now : Int) (tokenData : Option TokenData) : Option String :=
  match tokenData with
  | none => none
  | some td => if isTokenExpired now (some td) then none else some td.token

/-- Embeds `TokenManager.setToken`: a falsy (empty) token is ignored;
otherwise the slot is overwritten with expiry `now + expiresInSeconds*1000`. -/
def setToken (token : String) (expiresInSeconds : Int) (now : Int)
    (tokenData : Option TokenData) : Option TokenData :=
  if token = "" then tokenData
  else some { token := token, expiresAt := now + expiresInSeconds * 1000 }

/-- Embeds `TokenManager.clearToken`. -/
def clearToken (_tokenData : Option TokenData) : Option TokenData := none

/-! ## APIClient request engine (src/src/pages/basePage.ts)

The Playwright transport is an injected capability: attempt `k` (1-based)
either raises a transport error (modelled as its message) or delivers a raw
HTTP response.  `elapsed k` is the wall-clock span `Date.now() - startTime`
measured around attempt `k`. -/

/-- A raw transport response: status, statusText and headers as the
Playwright response exposes them; `jsonBody` is `some` when
`response.json()` parses, otherwise `textBody` is the `response.text()`
fallback. -/
structure RawResponse where
  status : Nat
  statusText : String
  headers : List (String × String)
  jsonBody : Option Json
  textBody : String

/-- The unified `APIResponse` shape of the source. -/
structure APIResponse where
  status : Nat
  statusText : String
  headers : List (String × String)
  data : Json
  responseTime : Nat

/-- Embeds `APIClient.handleResponse`: extract status/statusText/headers,
JSON-decode the body falling back to raw text (never failing), and attach
the attempt's elapsed time.  Logging (the status-class color coding) has no
effect on the returned value and is omitted. -/
def handleResponse (response : RawResponse) (time : Nat) : APIResponse :=
  { status := response.status
    statusText := response.statusText
    headers := response.headers
    data :=
      match response.jsonBody with
      | some j => j
      | none => .str response.textBody
    responseTime := time }

/-- What `APIClient.execute` does, instrumented with the number of
transport calls made: either an `APIResponse` is returned or the last
transport error is thrown. -/
inductive ExecOutcome where
  | ok (response : APIResponse) (attempts : Nat)
  | thrown (error : String) (attempts : Nat)

/-- Embeds the retry loop of `APIClient.execute`: `attempt` is the 1-based
index of the next transport call, `remaining` the number of attempts still
allowed (`retries + 1` at entry).  A delivered response returns immediately
through `handleResponse`; a transport error is retried while attempts
remain, and the last error is thrown once they run out.  The `0` base case
is unreachable from `execute` (the loop always admits `retries + 1 ≥ 1`
attempts). -/
def executeLoop (transport : Nat → Except String RawResponse)
    (elapsed : Nat → Nat) (attempt : Nat) : Nat → ExecOutcome
  | Nat.succ remaining =>
    match transport attempt with
    | .ok r => .ok (handleResponse r (elapsed attempt)) attempt
    | .error e =>
      match remaining with
      | 0 => .thrown e attempt
      | Nat.succ r' => executeLoop transport elapsed (attempt + 1) (Nat.succ r')
  | 0 => .thrown "" attempt

/-- Embeds `APIClient.execute` for a built URL and headers: run the retry
loop with `maxAttempts = retryAttempts + 1`. -/
def execute (transport : Nat → Except String RawResponse)
    (elapsed : Nat → Nat) (retryAttempts : Nat) : ExecOutcome :=
  executeLoop transport elapsed 1 (retryAttempts + 1)

/-! ### Header construction -/

/-- JS object property write `obj[key] = value`: overwrite in place when
the key exists, else append (JS objects keep insertion order and never hold
a duplicate key). -/
def hSet (key value : String) : List (String × String) → List (String × String)
  | [] => [(key, value)]
  | (k, v) :: rest =>
    if k = key then (key, value) :: rest else (k, v) :: hSet key value rest

/-- JS object property read `obj[key]`. -/
def hGet (key : String) : List (String × String) → Option String
  | [] => none
  | (k, v) :: rest => if k = key then some v else hGet key rest

/-- Embeds `APIClient.buildHeaders`: the JSON base headers, the caller's
`options.headers` spread over them, then `Authorization: Bearer <token>`
injected when the TokenManager currently yields a token. -/
def buildHeaders (customHeaders : List (String × String))
    (token : Option String) : List (String × String) :=
  let baseHeaders := [("Content-Type", "application/json"),
                      ("Accept", "application/json")]
  let merged := customHeaders.foldl (fun acc kv => hSet kv.1 kv.2 acc) baseHeaders
  match token with
  | some t => hSet "Authorization" ("Bearer " ++ t) merged
  | none => merged

/-! ## SchemaValidator (src/unnamed/part_000)

A schema node holds exactly the fields the validator reads; an absent field
is `none`.  The regex facility (`new RegExp(pattern).test(value)`) is an
external JS library: a `JsPattern` carries the pattern source string, whether
it compiles, and the test function the compiled regex denotes.  Error
accumulation is the explicit `es : List String` (the source's mutated
`errors` array); a JS throw is `Except.error (es, message)`, keeping the
errors pushed before the throw, so that the try/catch of `validate` can
append the message to them. -/

/-- The denotation of a JS regex pattern string. -/
structure JsPattern where
  src : String
  compileOk : Bool
  test : String → Bool

/-!
A schema node holds the fields `validateObject`/`validateField` read:
type, required, properties, items, minLength, maxLength, pattern, enum,
minimum, maximum (in that order).  `SProps` is the `properties` map as the
ordered key/schema association the source iterates with `Object.keys`.
-/

mutual

inductive Schema where
  | mk (type : Option String)
       (required : Option (List String))
       (properties : Option SProps)
       (items : Option Schema)
       (minLength : Option Int)
       (maxLength : Option Int)
       (pattern : Option JsPattern)
       (enumVals : Option (List String))
       (minimum : Option Int)
       (maximum : Option Int)

inductive SProps where
  | nil
  | cons (key : String) (sch : Schema) (rest : SProps)

end

/-!
`schemaWeight` counts the schema nodes below (and including) a node; it
strictly dominates the nesting depth of the recursion of `validateField`,
and is used as its recursion fuel.
-/

mutual

def schemaWeight : Schema → Nat
  | .mk _ _ properties items _ _ _ _ _ _ =>
    1 + (match properties with
         | some ps => propsWeight ps
         | none => 0)
      + (match items with
         | some itemSchema => schemaWeight itemSchema
         | none => 0)

def propsWeight : SProps → Nat
  | .nil => 0
  | .cons _ sch rest => 1 + schemaWeight sch + propsWeight rest

end

/-- The `{valid, errors}` return shape of `validate`. -/
structure ValidationResult where
  valid : Bool
  errors : List String
deriving Repr, DecidableEq

/-- The result of a validator step: `.ok` carries the accumulated errors,
`.error` carries (errors accumulated before the throw, thrown message). -/
abbrev VRes := Except (List String × String) (List String)

/-- Embeds `SchemaValidator.joinPath`: a truthy (nonempty) parent is dotted
onto the child. -/
def joinPath (parent child : String) : String :=
  if parent ≠ "" then parent ++ "." ++ child else child

/-- `value.length` for the string rules (only reached when the value is a
string, the type check having matched). -/
def Json.strLen : Json → Nat
  | .str s => s.length
  | _ => 0

/-- The string value for the pattern/enum rules (only reached when the
value is a string). -/
def Json.strVal : Json → String
  | .str s => s
  | _ => ""

/-- The numeric value for the number rules (only reached when the value is
a number; the default NaN makes the bound comparisons false, as the JS
comparisons on a non-number would be). -/
def Json.numVal : Json → JsNum
  | .num n => n
  | _ => .nan

/-- The required-fields walk of `validateObject`: for every name of
`schema.required` absent from the data, push a missing-required error.
`field in data` throws a TypeError on primitive data, aborting the walk
with the errors pushed so far. -/
def checkRequiredList (data : Json) (fields : List String) (path : String)
    (es : List String) : VRes :=
  match fields with
  | [] => .ok es
  | field :: rest =>
    match jsIn field data with
    | .error msg => .error (es, msg)
    | .ok present =>
      let es :=
        if !present then es ++ ["Missing required field: " ++ joinPath path field]
        else es
      checkRequiredList data rest path es

/-- The `schema.required && Array.isArray(schema.required)` guard of
`validateObject`. -/
def checkRequired (data : Json) (required : Option (List String))
    (path : String) (es : List String) : VRes :=
  match required with
  | some fields => checkRequiredList data fields path es
  | none => .ok es

/-- The TYPE MISMATCH guard of `validateField`:
`fieldSchema.type && actualType !== fieldSchema.type`. -/
def typeMismatch (type : Option String) (actualType : String) : Bool :=
  match type with
  | some t => t != "" && actualType != t
  | none => false

/-- The minLength/maxLength string rules (truthiness-guarded, so a bound
of 0 is skipped). -/
def lengthRules (value : Json) (minLength maxLength : Option Int)
    (path : String) (es : List String) : List String :=
  let len : Int := (Json.strLen value : Int)
  let es :=
    match minLength with
    | some m =>
      if m != 0 && decide (len < m) then
        es ++ [path ++ " is too short (min: " ++ toString m ++ ")"]
      else es
    | none => es
  match maxLength with
  | some m =>
    if m != 0 && decide (m < len) then
      es ++ [path ++ " is too long (max: " ++ toString m ++ ")"]
    else es
  | none => es

/-- The pattern string rule: guard is truthiness of the pattern string;
`new RegExp` throws a SyntaxError on an invalid pattern. -/
def patternRule (value : Json) (pattern : Option JsPattern)
    (path : String) (es : List String) : VRes :=
  match pattern with
  | some p =>
    if p.src != "" then
      if !p.compileOk then
        .error (es, "Invalid regular expression: /" ++ p.src ++ "/")
      else if !p.test (Json.strVal value) then
        .ok (es ++ [path ++ " does not match pattern: " ++ p.src])
      else .ok es
    else .ok es
  | none => .ok es

/-- The enum string rule. -/
def enumRule (value : Json) (enumVals : Option (List String))
    (path : String) (es : List String) : List String :=
  match enumVals with
  | some vs =>
    if !vs.contains (Json.strVal value) then
      es ++ [path ++ " should be one of: " ++ String.intercalate ", " vs]
    else es
  | none => es

/-- The STRING RULES block of `validateField` in source order: lengths,
pattern (which can throw), enum. -/
def stringRules (value : Json) (minLength maxLength : Option Int)
    (pattern : Option JsPattern) (enumVals : Option (List String))
    (path : String) (es : List String) : VRes :=
  let es := lengthRules value minLength maxLength path es
  match patternRule value pattern path es with
  | .error e => .error e
  | .ok es => .ok (enumRule value enumVals path es)

/-- The NUMBER RULES block of `validateField`: the validity re-check
(`typeof value !== "number" || Number.isNaN(value)`) first, then the
presence-guarded minimum/maximum bounds. -/
def numberRules (value : Json) (minimum maximum : Option Int)
    (path : String) (es : List String) : List String :=
  let n := Json.numVal value
  let es :=
    if value.typeof != "number" || n.isNaN then
      es ++ [path ++ " must be a valid number"]
    else es
  let es :=
    match minimum with
    | some m =>
      if n.ltInt m then es ++ [path ++ " is below minimum: " ++ toString m]
      else es
    | none => es
  match maximum with
  | some m =>
    if n.gtInt m then es ++ [path ++ " exceeds maximum: " ++ toString m]
    else es
  | none => es

/-- The array items walk of `validateField`, parameterized by the field
validator `vf`: each element is validated against `fieldSchema.items` at
the bracket-indexed path. -/
def runItems (vf : Json → Schema → String → List String → VRes)
    (elems : List Json) (itemSchema : Schema) (path : String)
    (es : List String) (idx : Nat) : VRes :=
  match elems with
  | [] => .ok es
  | x :: rest =>
    match vf x itemSchema (path ++ "[" ++ toString idx ++ "]") es with
    | .error e => .error e
    | .ok es => runItems vf rest itemSchema path es (idx + 1)

/-- The properties walk of `validateObject`, parameterized by the field
validator `vf`: keys in insertion order; a key absent from the data is
skipped (a required one was already logged); a present key's value is
validated at the joined path.  `key in data` throws a TypeError on
primitive data. -/
def runProps (vf : Json → Schema → String → List String → VRes)
    (data : Json) (props : SProps) (path : String) (es : List String) : VRes :=
  match props with
  | .nil => .ok es
  | .cons key fieldSchema rest =>
    match jsIn key data with
    | .error msg => .error (es, msg)
    | .ok present =>
      if present then
        match vf (jsonGet data key) fieldSchema (joinPath path key) es with
        | .error e => .error e
        | .ok es => runProps vf data rest path es
      else runProps vf data rest path es

/-- The ARRAY RULES block of `validateField`, parameterized by the field
validator used for the items walk.  The defensive not-an-array re-check
keeps the source's early return, which is equivalent here since the
skipped object block cannot fire for a declared type of "array".  An array
schema without `items` hands each element to `validateField` with an
undefined schema, whose first property read throws a TypeError. -/
def arrayRulesPart (vf : Json → Schema → String → List String → VRes)
    (type : Option String) (items : Option Schema) (value : Json)
    (path : String) (es : List String) : VRes :=
  if type == some "array" then
    match value with
    | .arr elems =>
      (match items with
       | some itemSchema => runItems vf elems itemSchema path es 0
       | none =>
         (match elems with
          | [] => .ok es
          | _ :: _ =>
            .error (es, "Cannot read properties of undefined (reading 'type')")))
    | _ => .ok (es ++ [path ++ " must be an array"])
  else .ok es

/-- The NESTED OBJECT RULES block of `validateField` — the
`validateObject(value, fieldSchema, path, errors)` call on the same node:
required fields, then the properties walk — parameterized by the field
validator used for that walk. -/
def objectRulesPart (vf : Json → Schema → String → List String → VRes)
    (type : Option String) (required : Option (List String))
    (properties : Option SProps) (value : Json) (path : String)
    (es : List String) : VRes :=
  if type == some "object" then
    match properties with
    | some ps =>
      (match checkRequired value required path es with
       | .error e => .error e
       | .ok es => runProps vf value ps path es)
    | none => .ok es
  else .ok es

/-- Embeds `SchemaValidator.validateField`, with an explicit recursion fuel
(each nested `validateField` call burns one unit; `schemaWeight` of the
schema in hand strictly dominates the possible nesting, so the fuel-out
branch is unreachable from `validateFieldE` — see
`validateFieldF_fuel_irrelevant`; its message is what a JS engine raises
when the recursion does not terminate, which for the cyclic schema objects
expressible in JS but not here is the source's actual behavior): compute
the actual type (array winning over object), stop at a type mismatch, then
apply the string, number, boolean, array and nested-object rule blocks in
the source's order. -/
def validateFieldF : Nat → Json → Schema → String → List String → VRes
  | 0, _, _, _, es => .error (es, "Maximum call stack size exceeded")
  | Nat.succ fuel, value, fieldSchema, path, es =>
    match fieldSchema with
    | .mk type required properties items minLength maxLength pattern
        enumVals minimum maximum =>
      let actualType := if value.isArray then "array" else value.typeof
      if typeMismatch type actualType then
        .ok (es ++ ["Type mismatch at " ++ path ++ ": expected " ++
                    type.getD "" ++ ", got " ++ actualType])
      else
        match (if type == some "string" then
                 stringRules value minLength maxLength pattern enumVals path es
               else .ok es) with
        | .error e => .error e
        | .ok es =>
          let es := if type == some "number" then numberRules value minimum maximum path es else es
          let es :=
            if type == some "boolean" && value.typeof != "boolean" then
              es ++ [path ++ " must be a boolean"]
            else es
          match arrayRulesPart (validateFieldF fuel) type items value path es with
          | .error e => .error e
          | .ok es =>
            objectRulesPart (validateFieldF fuel) type required properties value path es

/-- Embeds `SchemaValidator.validateField` itself: the fuel-indexed walk
started with enough fuel for the schema in hand. -/
def validateFieldE (value : Json) (fieldSchema : Schema) (path : String)
    (es : List String) : VRes :=
  validateFieldF (schemaWeight fieldSchema) value fieldSchema path es

/-- Embeds `SchemaValidator.validateObject`: the non-object-schema guard of
the source never fires for a structured `Schema` value; then the required
fields check and the properties walk. -/
def validateObjectE (data : Json) (schema : Schema) (path : String)
    (es : List String) : VRes :=
  match schema with
  | .mk _ required properties _ _ _ _ _ _ _ =>
    match checkRequired data required path es with
    | .error e => .error e
    | .ok es =>
      match properties with
      | some ps => runProps validateFieldE data ps path es
      | none => .ok es

/-- Embeds `SchemaValidator.validate`: delegate to `validateObject` with an
empty path and a fresh accumulator inside try/catch; a thrown error has its
message appended after the errors pushed before the throw; `valid` is
`errors.length === 0`.  The PASS/FAIL logging has no effect on the
result. -/
def validate (data : Json) (schema : Schema) : ValidationResult :=
  let errors :=
    match validateObjectE data schema "" [] with
    | .ok es => es
    | .error (es, msg) => es ++ [msg]
  { valid := errors.isEmpty, errors := errors }

/-! ## Concrete fixtures used by the claims -/

/-- A delivered HTTP 500 response. -/
def raw500 : RawResponse :=
  { status := 500, statusText := "Internal Server Error", headers := [],
    jsonBody := some (.obj []), textBody := "" }

/-- The schema `{type:"number"}`. -/
def numberItemSchema : Schema :=
  .mk (some "number") none none none none none none none none none

/-- The schema `{type:"array", items:{type:"number"}}`. -/
def arrayNumberSchema : Schema :=
  .mk (some "array") none none (some numberItemSchema) none none none none none none

/-- The schema `{type:"object", properties:{list:{type:"array",
items:{type:"number"}}}}`. -/
def listPropSchema : Schema :=
  .mk (some "object") none (some (.cons "list" arrayNumberSchema .nil)) none
    none none none none none none

/-- The denotation of the regex `^[^@]+@[^@]+$`: exactly one at-sign,
neither first nor last. -/
def emailPatternTest (s : String) : Bool :=
  let cs := s.toList
  cs.count '@' == 1 && cs.head? != some '@' && cs.getLast? != some '@'

/-- The pattern `"^[^@]+@[^@]+$"` as the validator receives it. -/
def emailPattern : JsPattern :=
  { src := "^[^@]+@[^@]+$", compileOk := true, test := emailPatternTest }

/-- The schema `{type:"object", required:["id","email"],
properties:{id:{type:"number",minimum:1},
email:{type:"string",pattern:"^[^@]+@[^@]+$"}}}`. -/
def userSchema : Schema :=
  .mk (some "object") (some ["id", "email"])
    (some (.cons "id"
             (.mk (some "number") none none none none none none none (some 1) none)
           (.cons "email"
             (.mk (some "string") none none none none none (some emailPattern)
                none none none)
            .nil)))
    none none none none none none none

/-- The schema `{required:["a"]}`. -/
def requiredOnlySchema : Schema :=
  .mk none (some ["a"]) none none none none none none none none

/-! ## TokenManager theorems -/

/-- C4: `getToken` returns null exactly when no credential is stored (never
set or cleared) or `now >= expiresAt`; for every `now < expiresAt` it
returns the stored token string, the expiry comparison being made against
the `now` of each read. -/
theorem getToken_null_iff_absent_or_expired (tokenData : Option TokenData) (now : Int) :
    (getToken now tokenData = none ↔
      tokenData = none ∨ ∃ td, tokenData = some td ∧ td.expiresAt ≤ now) ∧
    (∀ td, tokenData = some td → now < td.expiresAt →
      getToken now tokenData = some td.token) := by
  constructor
  · cases tokenData with
    | none => simp [getToken]
    | some td =>
      by_cases h : td.expiresAt ≤ now <;> simp [getToken, isTokenExpired, h] <;> omega
  · rintro td rfl h
    have hx : isTokenExpired now (some td) = false := by
      simp [isTokenExpired]; omega
    simp [getToken, hx]

/-- Witness for C4 at the instant just before expiry: `now = 999`,
`expiresAt = 1000`. -/
theorem getToken_null_iff_absent_or_expired_witness :
    getToken 999 (some { token := "tok", expiresAt := 1000 }) = some "tok" :=
  (getToken_null_iff_absent_or_expired (some { token := "tok", expiresAt := 1000 }) 999).2
    { token := "tok", expiresAt := 1000 } rfl (by decide)

/-- C7: `setToken` with an empty (falsy) token is a no-op for every prior
state: the slot is unchanged and a subsequent `getToken` at any time
returns exactly what it would have returned before the call. -/
theorem setToken_empty_noop (tokenData : Option TokenData)
    (expiresInSeconds now now' : Int) :
    setToken "" expiresInSeconds now tokenData = tokenData ∧
    getToken now' (setToken "" expiresInSeconds now tokenData)
      = getToken now' tokenData := by
  simp [setToken]

/-! ## Request engine theorems -/

/-- A delivered response ends the retry loop at the current attempt. -/
theorem executeLoop_ok_step (transport : Nat → Except String RawResponse)
    (elapsed : Nat → Nat) (attempt remaining : Nat) (r : RawResponse)
    (h : transport attempt = .ok r) :
    executeLoop transport elapsed attempt (remaining + 1)
      = .ok (handleResponse r (elapsed attempt)) attempt := by
  unfold executeLoop
  simp only [h]

/-- A transport error on the last allowed attempt is thrown. -/
theorem executeLoop_err_last (transport : Nat → Except String RawResponse)
    (elapsed : Nat → Nat) (attempt : Nat) (e : String)
    (h : transport attempt = .error e) :
    executeLoop transport elapsed attempt 1 = .thrown e attempt := by
  unfold executeLoop
  simp only [h]

/-- A transport error with attempts remaining moves to the next attempt. -/
theorem executeLoop_err_step (transport : Nat → Except String RawResponse)
    (elapsed : Nat → Nat) (attempt rr : Nat) (e : String)
    (h : transport attempt = .error e) :
    executeLoop transport elapsed attempt (rr + 1 + 1)
      = executeLoop transport elapsed (attempt + 1) (rr + 1) := by
  conv_lhs => unfold executeLoop
  simp only [h]

/-- The retry loop returns the first delivered response: if every attempt
before `k` raises a transport error and attempt `k` (within the allowed
window) delivers `r`, the loop stops at `k` with the shaped response. -/
theorem executeLoop_delivers (transport : Nat → Except String RawResponse)
    (elapsed : Nat → Nat) (r : RawResponse) :
    ∀ (rem attempt k : Nat), attempt ≤ k → k ≤ attempt + rem →
      (∀ j, attempt ≤ j → j < k → ∃ e, transport j = .error e) →
      transport k = .ok r →
      executeLoop transport elapsed attempt (rem + 1)
        = .ok (handleResponse r (elapsed k)) k := by
  intro rem
  induction rem with
  | zero =>
    intro attempt k h1 h2 _ hok
    have hk : k = attempt := by omega
    subst hk
    exact executeLoop_ok_step transport elapsed k 0 r hok
  | succ rr ih =>
    intro attempt k h1 h2 hfail hok
    by_cases hk : k = attempt
    · subst hk
      exact executeLoop_ok_step transport elapsed k (rr + 1) r hok
    · obtain ⟨e, he⟩ := hfail attempt (le_refl _) (by omega)
      have hrec := ih (attempt + 1) k (by omega) (by omega)
        (fun j hj1 hj2 => hfail j (by omega) hj2) hok
      rw [executeLoop_err_step transport elapsed attempt rr e he]
      exact hrec

/-- The retry loop on a persistently failing transport makes every allowed
attempt and throws the last error. -/
theorem executeLoop_all_fail (transport : Nat → Except String RawResponse)
    (elapsed : Nat → Nat) (errAt : Nat → String) :
    ∀ (rem attempt : Nat),
      (∀ k, attempt ≤ k → k ≤ attempt + rem → transport k = .error (errAt k)) →
      executeLoop transport elapsed attempt (rem + 1)
        = .thrown (errAt (attempt + rem)) (attempt + rem) := by
  intro rem
  induction rem with
  | zero =>
    intro attempt h
    have h1 : transport attempt = .error (errAt attempt) :=
      h attempt (le_refl _) (by omega)
    rw [Nat.add_zero]
    exact executeLoop_err_last transport elapsed attempt (errAt attempt) h1
  | succ rr ih =>
    intro attempt h
    have h1 : transport attempt = .error (errAt attempt) :=
      h attempt (le_refl _) (by omega)
    have hrec := ih (attempt + 1) (fun k hk1 hk2 => h k (by omega) (by omega))
    have heq : attempt + 1 + rr = attempt + (rr + 1) := by omega
    rw [heq] at hrec
    rw [executeLoop_err_step transport elapsed attempt rr (errAt attempt) h1]
    exact hrec

/-- C1: whenever the transport delivers an HTTP response (after any number
of transport failures, and whatever the status code, 4xx and 5xx included),
`execute` stops at that attempt and returns the shaped `APIResponse`
carrying the literal status code: it neither throws for a delivered
response nor makes a further attempt based on the status. -/
theorem execute_returns_delivered_response
    (transport : Nat → Except String RawResponse) (elapsed : Nat → Nat)
    (retryAttempts k : Nat) (r : RawResponse)
    (hk1 : 1 ≤ k) (hk2 : k ≤ retryAttempts + 1)
    (hfail : ∀ j, 1 ≤ j → j < k → ∃ e, transport j = .error e)
    (hok : transport k = .ok r) :
    execute transport elapsed retryAttempts = .ok (handleResponse r (elapsed k)) k ∧
    (handleResponse r (elapsed k)).status = r.status := by
  refine ⟨?_, rfl⟩
  exact executeLoop_delivers transport elapsed r retryAttempts 1 k hk1 (by omega) hfail hok

/-- Witness for C1: a 500 delivered on the first attempt with
`retryAttempts = 3` is returned at once, status 500, after exactly one
transport call. -/
theorem execute_returns_delivered_response_witness :
    execute (fun _ => .ok raw500) (fun _ => 7) 3 = .ok (handleResponse raw500 7) 1 ∧
    (handleResponse raw500 7).status = 500 :=
  execute_returns_delivered_response (fun _ => .ok raw500) (fun _ => 7) 3 1 raw500
    (le_refl 1) (by omega) (fun j h1 h2 => absurd h2 (by omega)) rfl

/-- C2: for every configured `retryAttempts = n`, a transport failing on
every attempt makes `execute` perform exactly `n + 1` transport calls and
then throw the last transport error, not return an `APIResponse`. -/
theorem execute_exhausts_attempts
    (transport : Nat → Except String RawResponse) (elapsed : Nat → Nat)
    (n : Nat) (errAt : Nat → String)
    (h : ∀ k, 1 ≤ k → k ≤ n + 1 → transport k = .error (errAt k)) :
    execute transport elapsed n = .thrown (errAt (n + 1)) (n + 1) := by
  have hrec := executeLoop_all_fail transport elapsed errAt n 1
    (fun k hk1 hk2 => h k hk1 (by omega))
  have heq : 1 + n = n + 1 := by omega
  rw [heq] at hrec
  exact hrec

/-- Witness for C2 at `retryAttempts = 2`: three transport calls, the
third attempt's error thrown. -/
theorem execute_exhausts_attempts_witness :
    execute (fun k => .error ("refused " ++ toString k)) (fun _ => 0) 2
      = .thrown ("refused " ++ toString 3) 3 :=
  execute_exhausts_attempts (fun k => .error ("refused " ++ toString k)) (fun _ => 0) 2
    (fun k => "refused " ++ toString k) (fun k h1 h2 => rfl)

/-! ## Header construction theorems -/

/-- Writing a key makes it readable with that value. -/
theorem hGet_hSet_same (key value : String) :
    ∀ hs, hGet key (hSet key value hs) = some value := by
  intro hs
  induction hs with
  | nil => simp [hSet, hGet]
  | cons kv rest ih =>
    obtain ⟨k, v⟩ := kv
    by_cases h : k = key <;> simp [hSet, hGet, h, ih]

/-- Writing one key leaves every other key's value unchanged. -/
theorem hGet_hSet_other (key key' value : String) (hne : key ≠ key') :
    ∀ hs, hGet key (hSet key' value hs) = hGet key hs := by
  intro hs
  induction hs with
  | nil => simp [hSet, hGet, Ne.symm hne]
  | cons kv rest ih =>
    obtain ⟨k, v⟩ := kv
    by_cases h : k = key'
    · subst h
      simp [hSet, hGet, Ne.symm hne]
    · by_cases h2 : k = key <;> simp [hSet, hGet, h, h2, ih, hne]

/-- A key not among the pairs reads as absent. -/
theorem hGet_of_not_mem (key : String) :
    ∀ hs : List (String × String), key ∉ hs.map Prod.fst → hGet key hs = none := by
  intro hs
  induction hs with
  | nil => intro _; simp [hGet]
  | cons kv rest ih =>
    intro h
    obtain ⟨k, v⟩ := kv
    rw [List.map_cons, List.mem_cons, not_or] at h
    simp [hGet, Ne.symm h.1, ih h.2]

/-- Spreading pairs that do not hold a key over a base object leaves that
key's value as the base's. -/
theorem hGet_foldl_of_none (key : String) :
    ∀ (custom base : List (String × String)), hGet key custom = none →
      hGet key (custom.foldl (fun acc kv => hSet kv.1 kv.2 acc) base) = hGet key base := by
  intro custom
  induction custom with
  | nil => intro base _; simp
  | cons kv rest ih =>
    intro base h
    obtain ⟨k, v⟩ := kv
    by_cases hk : k = key
    · subst hk
      simp [hGet] at h
    · simp only [hGet, if_neg hk] at h
      rw [List.foldl_cons]
      rw [ih (hSet k v base) h]
      exact hGet_hSet_other key k v (fun he => hk he.symm) base

/-- Spreading pairs with pairwise-distinct keys over a base object gives a
held key its spread value. -/
theorem hGet_foldl_of_some (key value : String) :
    ∀ (custom base : List (String × String)),
      (custom.map Prod.fst).Nodup → hGet key custom = some value →
      hGet key (custom.foldl (fun acc kv => hSet kv.1 kv.2 acc) base) = some value := by
  intro custom
  induction custom with
  | nil => intro base _ h; simp [hGet] at h
  | cons kv rest ih =>
    intro base hnd h
    obtain ⟨k, v⟩ := kv
    rw [List.map_cons, List.nodup_cons] at hnd
    by_cases hk : k = key
    · subst hk
      simp [hGet] at h
      subst h
      have hnone : hGet k rest = none := hGet_of_not_mem k rest hnd.1
      rw [List.foldl_cons]
      rw [hGet_foldl_of_none k rest (hSet k v base) hnone]
      exact hGet_hSet_same k v base
    · simp only [hGet, if_neg hk] at h
      rw [List.foldl_cons]
      exact ih (hSet k v base) hnd.2 h

/-- C9: custom headers are spread over the base JSON headers before token
injection, so whenever the TokenManager yields a (stored, non-expired)
token the built Authorization header is `Bearer <token>`, silently
overwriting any caller-supplied Authorization value; when no token is
yielded, a caller-supplied Authorization header is preserved. -/
theorem buildHeaders_authorization (customHeaders : List (String × String))
    (tokenData : Option TokenData) (now : Int) (t v : String)
    (hnodup : (customHeaders.map Prod.fst).Nodup) :
    (getToken now tokenData = some t →
      hGet "Authorization" (buildHeaders customHeaders (getToken now tokenData))
        = some ("Bearer " ++ t)) ∧
    (getToken now tokenData = none →
      hGet "Authorization" customHeaders = some v →
      hGet "Authorization" (buildHeaders customHeaders (getToken now tokenData))
        = some v) := by
  constructor
  · intro h
    rw [h]
    simp only [buildHeaders]
    exact hGet_hSet_same _ _ _
  · intro h hv
    rw [h]
    simp only [buildHeaders]
    exact hGet_foldl_of_some _ _ customHeaders _ hnodup hv

/-- Witness for C9: a caller-supplied `Authorization: Basic abc` is
overwritten by `Bearer tok` while a token is held, and preserved when no
credential is stored. -/
theorem buildHeaders_authorization_witness :
    hGet "Authorization"
        (buildHeaders [("Authorization", "Basic abc")]
          (getToken 0 (some { token := "tok", expiresAt := 99 })))
      = some ("Bearer " ++ "tok") ∧
    hGet "Authorization" (buildHeaders [("Authorization", "Basic abc")] (getToken 0 none))
      = some "Basic abc" :=
  ⟨(buildHeaders_authorization [("Authorization", "Basic abc")]
      (some { token := "tok", expiresAt := 99 }) 0 "tok" "x" (by simp)).1 rfl,
   (buildHeaders_authorization [("Authorization", "Basic abc")] none 0 "t" "Basic abc"
      (by simp)).2 rfl rfl⟩

/-! ## SchemaValidator theorems -/

/-- Every schema node weighs at least one. -/
theorem schemaWeight_pos (fs : Schema) : 1 ≤ schemaWeight fs := by
  cases fs with
  | mk type required properties items a b c d e f =>
    cases properties <;> cases items <;>
      exact le_trans (Nat.le_add_right 1 _) (Nat.le_add_right _ _)

/-- The items walk only consults the validator at the item schema. -/
theorem runItems_congr (vf₁ vf₂ : Json → Schema → String → List String → VRes)
    (itemSchema : Schema)
    (h : ∀ v p es, vf₁ v itemSchema p es = vf₂ v itemSchema p es) :
    ∀ elems path es idx,
      runItems vf₁ elems itemSchema path es idx
        = runItems vf₂ elems itemSchema path es idx := by
  intro elems
  induction elems with
  | nil => intro path es idx; rfl
  | cons x rest ih =>
    intro path es idx
    simp only [runItems]
    rw [h]
    cases vf₂ x itemSchema (path ++ "[" ++ toString idx ++ "]") es with
    | error e => rfl
    | ok es2 => exact ih path es2 (idx + 1)

/-- The properties walk only consults the validator at schemas no heavier
than the property list. -/
theorem runProps_congr (vf₁ vf₂ : Json → Schema → String → List String → VRes) :
    ∀ ps : SProps,
      (∀ sch, schemaWeight sch ≤ propsWeight ps →
        ∀ v p es, vf₁ v sch p es = vf₂ v sch p es) →
      ∀ data path es, runProps vf₁ data ps path es = runProps vf₂ data ps path es
  | .nil => by intro _ data path es; rfl
  | .cons key sch rest => by
    intro h data path es
    have hsch : ∀ v p es, vf₁ v sch p es = vf₂ v sch p es := by
      intro v p es
      exact h sch (by simp only [propsWeight]; omega) v p es
    have hrest := runProps_congr vf₁ vf₂ rest (fun sch2 hle v p es =>
      h sch2 (by simp only [propsWeight]; omega) v p es)
    simp only [runProps]
    cases jsIn key data with
    | error msg => rfl
    | ok present =>
      cases present with
      | false => exact hrest data path es
      | true =>
        rw [hsch]
        cases vf₂ (jsonGet data key) sch (joinPath path key) es with
        | error e => rfl
        | ok es2 => exact hrest data path es2

/-- The array block agrees for validators that agree at the item schema. -/
theorem arrayRulesPart_congr (vf₁ vf₂ : Json → Schema → String → List String → VRes)
    (type : Option String) (items : Option Schema)
    (h : ∀ isch, items = some isch → ∀ v p es, vf₁ v isch p es = vf₂ v isch p es) :
    arrayRulesPart vf₁ type items = arrayRulesPart vf₂ type items := by
  funext value path es
  unfold arrayRulesPart
  cases hb : (type == some "array") with
  | false => rfl
  | true =>
    simp only [if_pos rfl]
    cases value with
    | arr elems =>
      cases items with
      | some itemSchema =>
        exact runItems_congr vf₁ vf₂ itemSchema (h itemSchema rfl) elems path es 0
      | none => rfl
    | null => rfl
    | bool b => rfl
    | num n => rfl
    | str s => rfl
    | obj fields => rfl

/-- The object block agrees for validators that agree below the property
list's weight. -/
theorem objectRulesPart_congr (vf₁ vf₂ : Json → Schema → String → List String → VRes)
    (type : Option String) (required : Option (List String))
    (properties : Option SProps)
    (h : ∀ ps, properties = some ps →
      ∀ sch, schemaWeight sch ≤ propsWeight ps →
        ∀ v p es, vf₁ v sch p es = vf₂ v sch p es) :
    objectRulesPart vf₁ type required properties
      = objectRulesPart vf₂ type required properties := by
  funext value path es
  unfold objectRulesPart
  cases hb : (type == some "object") with
  | false => rfl
  | true =>
    simp only [if_pos rfl]
    cases properties with
    | none => rfl
    | some ps =>
      cases checkRequired value required path es with
      | error e => rfl
      | ok es2 => exact runProps_congr vf₁ vf₂ ps (h ps rfl) value path es2

/-- An item schema weighs strictly less than its parent node. -/
theorem schemaWeight_items_lt (type : Option String)
    (required : Option (List String)) (properties : Option SProps)
    (itemSchema : Schema) (a b : Option Int) (c : Option JsPattern)
    (d : Option (List String)) (e f : Option Int) :
    schemaWeight itemSchema
      < schemaWeight (.mk type required properties (some itemSchema) a b c d e f) := by
  cases properties with
  | none =>
    show schemaWeight itemSchema < 1 + 0 + schemaWeight itemSchema
    omega
  | some ps =>
    show schemaWeight itemSchema < 1 + propsWeight ps + schemaWeight itemSchema
    omega

/-- A property list weighs strictly less than its parent node. -/
theorem schemaWeight_props_lt (type : Option String)
    (required : Option (List String)) (ps : SProps) (items : Option Schema)
    (a b : Option Int) (c : Option JsPattern) (d : Option (List String))
    (e f : Option Int) :
    propsWeight ps < schemaWeight (.mk type required (some ps) items a b c d e f) := by
  cases items with
  | none =>
    show propsWeight ps < 1 + propsWeight ps + 0
    omega
  | some itemSchema =>
    show propsWeight ps < 1 + propsWeight ps + schemaWeight itemSchema
    omega

/-- Above `schemaWeight`, fuel does not matter to `validateFieldF`: the
fuel-out branch is unreachable from `validateFieldE`, which starts the walk
at exactly that weight. -/
theorem validateFieldF_fuel_irrelevant :
    ∀ (n : Nat) (fs : Schema), schemaWeight fs ≤ n →
      ∀ fuel₁ fuel₂, schemaWeight fs ≤ fuel₁ → schemaWeight fs ≤ fuel₂ →
        ∀ v p es, validateFieldF fuel₁ v fs p es = validateFieldF fuel₂ v fs p es := by
  intro n
  induction n with
  | zero =>
    intro fs hfs
    have := schemaWeight_pos fs
    omega
  | succ m ih =>
    intro fs hfs fuel₁ fuel₂ h1 h2 v p es
    have hpos := schemaWeight_pos fs
    cases fuel₁ with
    | zero => omega
    | succ f₁ =>
      cases fuel₂ with
      | zero => omega
      | succ f₂ =>
        cases fs with
        | mk type required properties items minLength maxLength pattern
            enumVals minimum maximum =>
          have ha : arrayRulesPart (validateFieldF f₁) type items
              = arrayRulesPart (validateFieldF f₂) type items := by
            apply arrayRulesPart_congr
            intro itemSchema hisch v2 p2 es2
            subst hisch
            have hlt := schemaWeight_items_lt type required properties itemSchema
              minLength maxLength pattern enumVals minimum maximum
            exact ih itemSchema (by omega) f₁ f₂ (by omega) (by omega) v2 p2 es2
          have ho : objectRulesPart (validateFieldF f₁) type required properties
              = objectRulesPart (validateFieldF f₂) type required properties := by
            apply objectRulesPart_congr
            intro ps hps sch hsch v2 p2 es2
            subst hps
            have hlt := schemaWeight_props_lt type required ps items
              minLength maxLength pattern enumVals minimum maximum
            exact ih sch (by omega) f₁ f₂ (by omega) (by omega) v2 p2 es2
          simp only [validateFieldF]
          rw [ha, ho]

/-- Any fuel at least the schema's weight computes `validateFieldE`. -/
theorem validateFieldF_eq_validateFieldE (fuel : Nat) (fs : Schema)
    (h : schemaWeight fs ≤ fuel) (v : Json) (p : String) (es : List String) :
    validateFieldF fuel v fs p es = validateFieldE v fs p es :=
  validateFieldF_fuel_irrelevant (max fuel (schemaWeight fs)) fs
    (le_max_right fuel (schemaWeight fs)) fuel (schemaWeight fs) h
    (le_refl (schemaWeight fs)) v p es

/-- C6: for every data value and schema, `validate` returns a total
`ValidationResult` whose `valid` is true exactly when `errors` is empty,
and an exception thrown inside the object walk (a TypeError from `in` on
primitive data, a SyntaxError from an invalid regex) is caught and appended
as one error string after those already accumulated, never propagated. -/
theorem validate_total_result (data : Json) (schema : Schema) :
    ((validate data schema).valid = true ↔ (validate data schema).errors = []) ∧
    (∀ es msg, validateObjectE data schema "" [] = .error (es, msg) →
      validate data schema = { valid := false, errors := es ++ [msg] }) := by
  constructor
  · rw [show (validate data schema).valid = (validate data schema).errors.isEmpty from rfl]
    cases (validate data schema).errors <;> simp
  · intro es msg h
    unfold validate
    rw [h]
    simp

/-- Witness for C6: null data under a required-fields schema makes the
`in` operator throw a TypeError, which `validate` converts into the single
returned error string. -/
theorem validate_total_result_witness :
    validate .null requiredOnlySchema
      = { valid := false,
          errors := ["Cannot use 'in' operator to search for 'a' in null"] } :=
  (validate_total_result .null requiredOnlySchema).2 []
    "Cannot use 'in' operator to search for 'a' in null" rfl

/-- C3 counterexample: `validate` delegates only to the object-level walk
(required fields and properties), so on top-level data `[1,"x",3]` with the
schema `{type:"array", items:{type:"number"}}` it returns no errors at all
instead of one error at index `[1]`. -/
theorem validate_topLevel_array_no_errors :
    validate (.arr [.num (.val 1), .str "x", .num (.val 3)]) arrayNumberSchema
      = { valid := true, errors := [] } := rfl

/-- C3 amended: the array-item check fires when the same array schema is a
property's field schema: validating `{list:[1,"x",3]}` reports exactly one
error, and it references index `[1]`. -/
theorem validate_array_items_one_error :
    validate (.obj [("list", .arr [.num (.val 1), .str "x", .num (.val 3)])]) listPropSchema
      = { valid := false,
          errors := ["Type mismatch at list[1]: expected number, got string"] } := rfl

/-- C5: `{id:0, email:"bad"}` against the required id/email schema yields
`valid = false` with exactly two errors in the one call: id below the
minimum and the email pattern mismatch. -/
theorem validate_user_two_errors :
    validate (.obj [("id", .num (.val 0)), ("email", .str "bad")]) userSchema
      = { valid := false,
          errors := ["id is below minimum: 1",
                     "email does not match pattern: ^[^@]+@[^@]+$"] } := rfl

/-- C8 counterexample: Infinity is a non-finite value with `typeof`
"number", yet the validator's re-check (`Number.isNaN`) passes it: no
"must be a valid number" error is reported. -/
theorem validateField_infinity_no_error :
    validateFieldE (.num .inf) numberItemSchema "x" [] = .ok [] := rfl

/-- C8 amended: a NaN value (whose `typeof` is "number") is reported with
the "must be a valid number" error before the bound checks, which compare
false on NaN and so add nothing — whatever minimum/maximum the schema
sets; the re-check is `Number.isNaN`, so only NaN (not Infinity) fails
it. -/
theorem validateField_nan_invalid_number (path : String)
    (minimum maximum : Option Int) (es : List String) :
    validateFieldE (.num .nan)
        (.mk (some "number") none none none none none none none minimum maximum) path es
      = .ok (es ++ [path ++ " must be a valid number"]) := by
  cases minimum <;> cases maximum <;> rfl

/-- C10: length bounds set to 0 are truthiness-guarded and therefore
ignored: every string (non-empty ones included) passes a field schema
declaring `minLength: 0` and `maxLength: 0` with no length error. -/
theorem validateField_zero_length_bounds_ignored (s path : String) (es : List String) :
    validateFieldE (.str s)
        (.mk (some "string") none none none (some 0) (some 0) none none none none) path es
      = .ok es := rfl
